import Mathlib

/-!
Shallow embedding of the stream layer of the QXmpp library
(`src/base/QXmppStream.cpp`): the incremental XML framer, the stanza
dispatch loop and the stream-management (XEP-0198 style) subsystem.

External collaborators are modelled as parameters:
* the socket is a `connected` flag; `sendTextMessage` succeeds exactly
  when connected and appends the payload to an outbox trace;
* the XML machinery (`QRegExp` matching, `QDomDocument::setContent`,
  the stream-management frame parsers/serialisers) is an `XmlEnv`
  record of oracle functions, and the two control frames are
  distinguished outbox constructors;
* the virtual hooks `handleStanza` / `handleStream` append to an
  events trace.

Mutable fields of `QXmppStreamPrivate` become fields of `StreamState`;
the C++ `unsigned` counters are `Nat` reduced modulo `2 ^ 32` at each
increment.
-/

/-- Modulus of the C++ `unsigned` counters (32-bit). -/
def uintMod : Nat := 4294967296

/-- `static const QByteArray streamRootElementEnd`. -/
def streamRootElementEnd : String := "</stream:stream>"

/-- One item written to the socket via `sendTextMessage`.  Serialisation
of the two stream-management control frames lives outside this file
(`QXmppStreamManagement_p`), so they are kept symbolic. -/
inductive OutItem where
  | text (s : String)
  | ackFrame (h : Nat)
  | reqFrame
deriving DecidableEq, Repr

/-- A DOM element as far as the dispatch loop inspects it: its tag name,
whether the external classifiers recognise it as a stream-management
ack / request frame, and the acknowledged sequence number its `h`
attribute parses to when it is an ack frame. -/
structure Elem where
  tagName : String
  isSMAck : Bool
  ackSeqNo : Nat
  isSMReq : Bool
deriving DecidableEq, Repr

/-- A call to one of the virtual stanza hooks.  `stanzaDispatched none`
is `handleStanza(QDomElement())`, the whitespace-ping report. -/
inductive Event where
  | stanzaDispatched (e : Option Elem)
  | streamEstablished (root : Elem)
deriving DecidableEq, Repr

/-- A parsed `QDomDocument`: its document element and that element's
direct child elements in document order. -/
structure Doc where
  root : Elem
  children : List Elem
deriving DecidableEq, Repr

/-- A `QXmppStanza` as `sendPacket` consumes it: its `toXml`
serialisation and the `isXmppStanza()` classification
(message / presence / iq). -/
structure Stanza where
  xml : String
  isXmppStanza : Bool
deriving DecidableEq, Repr

/-- The external XML machinery used by `handleTextMessageReceived`:
`startStreamRegex` / `endStreamRegex` matching, the captured text
`startStreamRegex.cap(0)`, and `QDomDocument::setContent` (returning
`none` on parse failure). -/
structure XmlEnv where
  containsStreamStart : String → Bool
  capturedStreamStart : String → String
  containsStreamEnd : String → Bool
  setContent : String → Option Doc

/-- The mutable state of `QXmppStreamPrivate`, plus the socket's
connected flag and the two observation traces. -/
structure StreamState where
  dataBuffer : String
  streamStart : String
  streamManagementEnabled : Bool
  /-- `QMap<unsigned, QString>`: association list sorted by key. -/
  unacknowledgedStanzas : List (Nat × String)
  lastOutgoingSequenceNumber : Nat
  lastIncomingSequenceNumber : Nat
  /-- socket present and in `ConnectedState`. -/
  connected : Bool
  /-- texts accepted by `socket->sendTextMessage`. -/
  outbox : List OutItem
  /-- calls to the `handleStanza` / `handleStream` hooks. -/
  events : List Event
deriving DecidableEq, Repr

/-- `QMap::operator[]=`: insert keeping keys sorted, replacing an
existing binding of the same key. -/
def mapInsert (k : Nat) (v : String) : List (Nat × String) → List (Nat × String)
  | [] => [(k, v)]
  | (k', v') :: rest =>
    if k < k' then (k, v) :: (k', v') :: rest
    else if k = k' then (k, v) :: rest
    else (k', v') :: mapInsert k v rest

/-- `QXmppStream::sendData`: fails (returns `false`) unless the socket
exists and is connected; on success the payload reaches the wire. -/
def sendDataItem (item : OutItem) (s : StreamState) : Bool × StreamState :=
  if s.connected then (true, { s with outbox := s.outbox ++ [item] })
  else (false, s)

/-- `sendData` on ordinary text. -/
def sendData (t : String) (s : StreamState) : Bool × StreamState :=
  sendDataItem (OutItem.text t) s

/-- `QXmppStream::sendAcknowledgement`: no-op when management is
disabled, else emit an ack frame carrying `lastIncomingSequenceNumber`. -/
def sendAcknowledgement (s : StreamState) : StreamState :=
  if !s.streamManagementEnabled then s
  else (sendDataItem (OutItem.ackFrame s.lastIncomingSequenceNumber) s).2

/-- `QXmppStream::sendAcknowledgementRequest`: no-op when management is
disabled, else emit a request frame. -/
def sendAcknowledgementRequest (s : StreamState) : StreamState :=
  if !s.streamManagementEnabled then s
  else (sendDataItem OutItem.reqFrame s).2

/-- `QXmppStream::sendPacket`: serialise; when the packet is a real
stanza and management is enabled, register the text in the ledger under
`++lastOutgoingSequenceNumber` before transmitting; transmit; when the
packet is a real stanza, request an acknowledgement. -/
def sendPacket (p : Stanza) (s : StreamState) : Bool × StreamState :=
  let text := p.xml
  let isX := p.isXmppStanza
  let s1 :=
    if isX && s.streamManagementEnabled then
      let n := (s.lastOutgoingSequenceNumber + 1) % uintMod
      { s with lastOutgoingSequenceNumber := n,
               unacknowledgedStanzas := mapInsert n text s.unacknowledgedStanzas }
    else s
  let r := sendData text s1
  let s2 := if isX then sendAcknowledgementRequest r.2 else r.2
  (r.1, s2)

/-- `QXmppStream::setAcknowledgedSequenceNumber`: erase every ledger
entry whose key is ≤ the acknowledged number (the iterate-and-erase
loop keeps exactly the keys strictly above it). -/
def setAcknowledgedSequenceNumber (sequenceNumber : Nat) (s : StreamState) : StreamState :=
  { s with unacknowledgedStanzas :=
      s.unacknowledgedStanzas.filter (fun e => decide (sequenceNumber < e.1)) }

/-- `QXmppStream::handleAcknowledgement`: ignore the ack frame when
management is disabled, else parse its counter and acknowledge. -/
def handleAcknowledgement (element : Elem) (s : StreamState) : StreamState :=
  if !s.streamManagementEnabled then s
  else setAcknowledgedSequenceNumber element.ackSeqNo s

/-- `QXmppStream::disconnectFromHost`: drop the management flag; when
connected, send the closing stream tag, flush, and disconnect the
socket. -/
def disconnectFromHost (s : StreamState) : StreamState :=
  let s := { s with streamManagementEnabled := false }
  if s.connected then
    let s := (sendData streamRootElementEnd s).2
    { s with connected := false }
  else s

/-- `QXmppStream::handleStart` (run whenever the transport becomes
ready): reset the management flag, the incoming buffer and the captured
stream start. -/
def handleStart (s : StreamState) : StreamState :=
  { s with streamManagementEnabled := false, dataBuffer := "", streamStart := "" }

/-- `_q_socketConnected`: logs, then `handleStart()`. -/
def socketConnected (s : StreamState) : StreamState := handleStart s

/-- `_q_socketEncrypted`: logs, then `handleStart()`. -/
def socketEncrypted (s : StreamState) : StreamState := handleStart s

/-- `QChar::isSpace` on the ASCII whitespace characters that occur in
an XML stream. -/
def qIsSpace (c : Char) : Bool :=
  c == ' ' || c == '\t' || c == '\n' || c == '\r' ||
    c == '\x0b' || c == '\x0c'

/-- `QString::isEmpty`. -/
def qIsEmpty (s : String) : Bool :=
  s.data.isEmpty

/-- `QString::trimmed`: strip whitespace from both ends. -/
def qtrimmed (s : String) : String :=
  ⟨((s.data.dropWhile qIsSpace).reverse.dropWhile qIsSpace).reverse⟩

/-- The candidate document `completeXml` built from the accumulated
buffer: prepend the cached stream start unless this parse discovers
one, and append the synthetic closing tag unless a stream end is
present. -/
def candidateXml (env : XmlEnv) (cachedStart : String) (buf : String) : String :=
  let discovers := cachedStart.isEmpty && env.containsStreamStart buf
  let c := if discovers then buf else cachedStart ++ buf
  if env.containsStreamEnd buf then c else c ++ streamRootElementEnd

/-- One iteration of the dispatch loop over a direct child of the
document element: ack frames feed `handleAcknowledgement`, request
frames trigger `sendAcknowledgement`, everything else dispatches to
`handleStanza` and — when its tag is message / presence / iq —
increments `lastIncomingSequenceNumber`. -/
def processChild (e : Elem) (s : StreamState) : StreamState :=
  if e.isSMAck then handleAcknowledgement e s
  else if e.isSMReq then sendAcknowledgement s
  else
    let s := { s with events := s.events ++ [Event.stanzaDispatched (some e)] }
    if e.tagName = "message" || e.tagName = "presence" || e.tagName = "iq" then
      { s with lastIncomingSequenceNumber := (s.lastIncomingSequenceNumber + 1) % uintMod }
    else s

/-- The dispatch loop over all direct children in document order. -/
def processChildren (es : List Elem) (s : StreamState) : StreamState :=
  es.foldl (fun s e => processChild e s) s

/-- `QXmppStream::handleTextMessageReceived`: append the chunk; handle
whitespace pings; build the candidate document; on parse failure keep
the buffer untouched; on success clear the buffer, capture a discovered
stream start (invoking `handleStream`), dispatch the children, and shut
the stream down if a stream end was seen. -/
def handleTextMessageReceived (env : XmlEnv) (text : String) (s0 : StreamState) : StreamState :=
  let s := { s0 with dataBuffer := s0.dataBuffer ++ text }
  if !(qIsEmpty s.dataBuffer) && qIsEmpty (qtrimmed s.dataBuffer) then
    { s with dataBuffer := "", events := s.events ++ [Event.stanzaDispatched none] }
  else
    let discovers := s.streamStart.isEmpty && env.containsStreamStart s.dataBuffer
    let streamEndSeen := env.containsStreamEnd s.dataBuffer
    match env.setContent (candidateXml env s.streamStart s.dataBuffer) with
    | none => s
    | some doc =>
        let s1 := { s with dataBuffer := "" }
        let s2 :=
          if discovers then
            { s1 with streamStart := env.capturedStreamStart s.dataBuffer,
                      events := s1.events ++ [Event.streamEstablished doc.root] }
          else s1
        let s3 := processChildren doc.children s2
        if streamEndSeen then disconnectFromHost s3 else s3

/-- `QXmppStream::enableStreamManagement`: set the flag; when resetting,
zero both counters and re-insert every ledger entry (ascending key
order) under a freshly assigned number while retransmitting it; when
not resetting, retransmit every entry unchanged; in either case a
nonempty ledger ends with one acknowledgement request. -/
def enableStreamManagement (resetSequenceNumber : Bool) (s : StreamState) : StreamState :=
  let s := { s with streamManagementEnabled := true }
  if resetSequenceNumber then
    let s := { s with lastOutgoingSequenceNumber := 0, lastIncomingSequenceNumber := 0 }
    if s.unacknowledgedStanzas.isEmpty then s
    else
      let old := s.unacknowledgedStanzas
      let s := { s with unacknowledgedStanzas := [] }
      let s := old.foldl
        (fun s kv =>
          let n := (s.lastOutgoingSequenceNumber + 1) % uintMod
          let s := { s with lastOutgoingSequenceNumber := n,
                            unacknowledgedStanzas := mapInsert n kv.2 s.unacknowledgedStanzas }
          (sendData kv.2 s).2) s
      sendAcknowledgementRequest s
  else
    if s.unacknowledgedStanzas.isEmpty then s
    else
      let s := s.unacknowledgedStanzas.foldl (fun s kv => (sendData kv.2 s).2) s
      sendAcknowledgementRequest s

/-- A sequence of `sendPacket` calls. -/
def sendAll (ps : List Stanza) (s : StreamState) : StreamState :=
  ps.foldl (fun s p => (sendPacket p s).2) s

/-- The ledger entries `(n+1, x₁), (n+2, x₂), …` that registering the
given stanzas appends when the outgoing counter stands at `n`. -/
def seqTag : Nat → List Stanza → List (Nat × String)
  | _, [] => []
  | n, p :: ps => (n + 1, p.xml) :: seqTag (n + 1) ps

/-- A freshly constructed stream attached to a connected socket. -/
def initialState : StreamState :=
  { dataBuffer := "", streamStart := "", streamManagementEnabled := false,
    unacknowledgedStanzas := [], lastOutgoingSequenceNumber := 0,
    lastIncomingSequenceNumber := 0, connected := true, outbox := [], events := [] }

/-- An XML environment in which nothing matches and nothing parses. -/
def envNone : XmlEnv :=
  { containsStreamStart := fun _ => false, capturedStreamStart := fun _ => "",
    containsStreamEnd := fun _ => false, setContent := fun _ => none }

/-- A plain `<message/>` element. -/
def msgElem : Elem :=
  { tagName := "message", isSMAck := false, ackSeqNo := 0, isSMReq := false }

/-- An XML environment whose parser always yields a document holding a
single `<message/>` child. -/
def envMsg : XmlEnv :=
  { containsStreamStart := fun _ => false, capturedStreamStart := fun _ => "",
    containsStreamEnd := fun _ => false,
    setContent := fun _ =>
      some { root := { tagName := "stream", isSMAck := false, ackSeqNo := 0, isSMReq := false },
             children := [msgElem] } }

/-! ### Helper lemmas -/

theorem mem_mapInsert_self (k : Nat) (v : String) (L : List (Nat × String)) :
    (k, v) ∈ mapInsert k v L := by
  induction L with
  | nil => simp [mapInsert]
  | cons hd tl ih =>
    obtain ⟨k', v'⟩ := hd
    by_cases h1 : k < k'
    · simp [mapInsert, h1]
    · by_cases h2 : k = k'
      · simp [mapInsert, h1, h2]
      · simp only [mapInsert, if_neg h1, if_neg h2, List.mem_cons]
        exact Or.inr ih

theorem mapInsert_eq_append (k : Nat) (v : String) (L : List (Nat × String))
    (h : ∀ e ∈ L, e.1 < k) : mapInsert k v L = L ++ [(k, v)] := by
  induction L with
  | nil => rfl
  | cons hd tl ih =>
    obtain ⟨k', v'⟩ := hd
    have hk : k' < k := h (k', v') (List.mem_cons_self _ _)
    have h1 : ¬ k < k' := by omega
    have h2 : ¬ k = k' := by omega
    simp only [mapInsert, if_neg h1, if_neg h2, List.cons_append, List.cons.injEq, true_and]
    exact ih (fun e he => h e (List.mem_cons_of_mem _ he))

theorem sendPacket_fields (p : Stanza) (s : StreamState) :
    (sendPacket p s).2.streamManagementEnabled = s.streamManagementEnabled ∧
    (sendPacket p s).2.connected = s.connected ∧
    (sendPacket p s).2.lastIncomingSequenceNumber = s.lastIncomingSequenceNumber ∧
    (sendPacket p s).2.unacknowledgedStanzas =
      (if p.isXmppStanza && s.streamManagementEnabled
       then mapInsert ((s.lastOutgoingSequenceNumber + 1) % uintMod) p.xml
              s.unacknowledgedStanzas
       else s.unacknowledgedStanzas) ∧
    (sendPacket p s).2.lastOutgoingSequenceNumber =
      (if p.isXmppStanza && s.streamManagementEnabled
       then (s.lastOutgoingSequenceNumber + 1) % uintMod
       else s.lastOutgoingSequenceNumber) := by
  cases hx : p.isXmppStanza <;> cases hm : s.streamManagementEnabled <;>
    cases hc : s.connected <;>
      simp [sendPacket, sendData, sendDataItem, sendAcknowledgementRequest, hx, hm, hc]

/-! ### Claim theorems -/

/-- C9: on every (re)connect event (socket connected or encryption
established), the incoming buffer, the captured stream-start text and
the management-enabled flag are reset, while the outgoing ledger and
both sequence counters are left unchanged. -/
theorem connect_resets_connection_scoped_state (s : StreamState) :
    (socketConnected s).dataBuffer = "" ∧
    (socketConnected s).streamStart = "" ∧
    (socketConnected s).streamManagementEnabled = false ∧
    (socketConnected s).unacknowledgedStanzas = s.unacknowledgedStanzas ∧
    (socketConnected s).lastOutgoingSequenceNumber = s.lastOutgoingSequenceNumber ∧
    (socketConnected s).lastIncomingSequenceNumber = s.lastIncomingSequenceNumber ∧
    socketEncrypted s = socketConnected s := by
  simp [socketConnected, socketEncrypted, handleStart]

/-- C10: `disconnectFromHost` turns the management flag off while
leaving the ledger and both counters unchanged; when connected it sends
the closing tag and disconnects the transport; and any stanza sent
afterwards is not registered in the ledger. -/
theorem disconnect_disables_management (s : StreamState) (p : Stanza) :
    (disconnectFromHost s).streamManagementEnabled = false ∧
    (disconnectFromHost s).unacknowledgedStanzas = s.unacknowledgedStanzas ∧
    (disconnectFromHost s).lastOutgoingSequenceNumber = s.lastOutgoingSequenceNumber ∧
    (disconnectFromHost s).lastIncomingSequenceNumber = s.lastIncomingSequenceNumber ∧
    (sendPacket p (disconnectFromHost s)).2.unacknowledgedStanzas
      = s.unacknowledgedStanzas ∧
    (s.connected = true →
      (disconnectFromHost s).outbox = s.outbox ++ [OutItem.text streamRootElementEnd] ∧
      (disconnectFromHost s).connected = false) := by
  have h := sendPacket_fields p (disconnectFromHost s)
  cases hc : s.connected <;>
    simp_all [disconnectFromHost, sendData, sendDataItem, hc]

/-- C10 witness. -/
theorem disconnect_disables_management_witness :
    ({ initialState with connected := true }).connected = true ∧
    (disconnectFromHost { initialState with connected := true }).outbox
      = ({ initialState with connected := true }).outbox
          ++ [OutItem.text streamRootElementEnd] := by
  have h := disconnect_disables_management { initialState with connected := true }
    { xml := "<message/>", isXmppStanza := true }
  exact ⟨rfl, (h.2.2.2.2.2 rfl).1⟩

/-- C2: acknowledging `seq` keeps exactly the ledger entries with
sequence number strictly greater than `seq`; acknowledging `0` is a
no-op whenever every ledger key is positive; and an ack frame arriving
while management is disabled changes nothing. -/
theorem acknowledge_cumulative_removal (seq : Nat) (s : StreamState) (elt : Elem) :
    (∀ e, e ∈ (setAcknowledgedSequenceNumber seq s).unacknowledgedStanzas ↔
        e ∈ s.unacknowledgedStanzas ∧ seq < e.1) ∧
    ((∀ x ∈ s.unacknowledgedStanzas, 0 < x.1) →
        setAcknowledgedSequenceNumber 0 s = s) ∧
    (s.streamManagementEnabled = false → handleAcknowledgement elt s = s) ∧
    (s.streamManagementEnabled = true →
        handleAcknowledgement elt s = setAcknowledgedSequenceNumber elt.ackSeqNo s) := by
  refine ⟨?_, ?_, ?_, ?_⟩
  · intro e
    simp [setAcknowledgedSequenceNumber, List.mem_filter]
  · intro hpos
    have h : s.unacknowledgedStanzas.filter (fun e => decide (0 < e.1))
        = s.unacknowledgedStanzas :=
      List.filter_eq_self.mpr (fun a ha => by simpa using hpos a ha)
    simp [setAcknowledgedSequenceNumber, h]
  · intro hdis
    simp [handleAcknowledgement, hdis]
  · intro hen
    simp [handleAcknowledgement, hen]

/-- C2 witness. -/
theorem acknowledge_cumulative_removal_witness :
    ((∀ x ∈ ({ initialState with
          unacknowledgedStanzas := [(1, "a"), (2, "b")] } : StreamState).unacknowledgedStanzas,
        0 < x.1) ∧
      setAcknowledgedSequenceNumber 0
          { initialState with unacknowledgedStanzas := [(1, "a"), (2, "b")] }
        = { initialState with unacknowledgedStanzas := [(1, "a"), (2, "b")] }) ∧
    handleAcknowledgement msgElem
        { initialState with unacknowledgedStanzas := [(1, "a"), (2, "b")] }
      = { initialState with unacknowledgedStanzas := [(1, "a"), (2, "b")] } := by
  have h := acknowledge_cumulative_removal 0
    { initialState with unacknowledgedStanzas := [(1, "a"), (2, "b")] } msgElem
  refine ⟨⟨by decide, h.2.1 (by decide)⟩, h.2.2.1 (by decide)⟩

/-- C6: enabling stream management on an empty ledger retransmits
nothing, mutates the ledger in no way, touches the counters only by the
reset, and leaves management enabled. -/
theorem enable_empty_ledger (b : Bool) (s : StreamState)
    (h : s.unacknowledgedStanzas = []) :
    (enableStreamManagement b s).streamManagementEnabled = true ∧
    (enableStreamManagement b s).unacknowledgedStanzas = [] ∧
    (enableStreamManagement b s).outbox = s.outbox ∧
    (enableStreamManagement b s).events = s.events ∧
    (enableStreamManagement b s).dataBuffer = s.dataBuffer ∧
    (b = true →
      (enableStreamManagement b s).lastOutgoingSequenceNumber = 0 ∧
      (enableStreamManagement b s).lastIncomingSequenceNumber = 0) ∧
    (b = false →
      (enableStreamManagement b s).lastOutgoingSequenceNumber
          = s.lastOutgoingSequenceNumber ∧
      (enableStreamManagement b s).lastIncomingSequenceNumber
          = s.lastIncomingSequenceNumber) := by
  cases b <;> simp [enableStreamManagement, h]

/-- C6 witness. -/
theorem enable_empty_ledger_witness :
    (enableStreamManagement true initialState).streamManagementEnabled = true ∧
    (enableStreamManagement true initialState).unacknowledgedStanzas = [] ∧
    (enableStreamManagement true initialState).outbox = initialState.outbox := by
  have h := enable_empty_ledger true initialState (by decide)
  exact ⟨h.1, h.2.1, h.2.2.1⟩

/-- C3: sending a real stanza with management enabled registers its
serialised text in the ledger under the freshly assigned sequence
number; the entry is present whether or not transmission succeeds (no
rollback), and an unconnected transport surfaces as a `false` return. -/
theorem sendPacket_registers_before_transmission (p : Stanza) (s : StreamState)
    (hreal : p.isXmppStanza = true) (hsm : s.streamManagementEnabled = true) :
    (sendPacket p s).2.unacknowledgedStanzas
        = mapInsert ((s.lastOutgoingSequenceNumber + 1) % uintMod) p.xml
            s.unacknowledgedStanzas ∧
    (sendPacket p s).2.lastOutgoingSequenceNumber
        = (s.lastOutgoingSequenceNumber + 1) % uintMod ∧
    ((s.lastOutgoingSequenceNumber + 1) % uintMod, p.xml)
        ∈ (sendPacket p s).2.unacknowledgedStanzas ∧
    (s.connected = false → (sendPacket p s).1 = false) := by
  have h := sendPacket_fields p s
  refine ⟨?_, ?_, ?_, ?_⟩
  · simpa [hreal, hsm] using h.2.2.2.1
  · simpa [hreal, hsm] using h.2.2.2.2
  · have hu : (sendPacket p s).2.unacknowledgedStanzas
        = mapInsert ((s.lastOutgoingSequenceNumber + 1) % uintMod) p.xml
            s.unacknowledgedStanzas := by simpa [hreal, hsm] using h.2.2.2.1
    rw [hu]
    exact mem_mapInsert_self _ _ _
  · intro hc
    simp [sendPacket, sendData, sendDataItem, hc, hreal, hsm]

/-- C3 witness. -/
theorem sendPacket_registers_before_transmission_witness :
    (sendPacket { xml := "<message/>", isXmppStanza := true }
        { initialState with streamManagementEnabled := true,
                            connected := false }).1 = false ∧
    ((0 + 1) % uintMod, "<message/>")
      ∈ (sendPacket { xml := "<message/>", isXmppStanza := true }
          { initialState with streamManagementEnabled := true,
                              connected := false }).2.unacknowledgedStanzas := by
  have h := sendPacket_registers_before_transmission
    { xml := "<message/>", isXmppStanza := true }
    { initialState with streamManagementEnabled := true, connected := false }
    (by decide) (by decide)
  exact ⟨h.2.2.2 rfl, h.2.2.1⟩

/-- C7: a chunk that leaves the accumulated buffer nonempty but
whitespace-only triggers exactly one ping report (the null-element
stanza hook), clears the buffer, and changes nothing else — in
particular no parse result and no dispatched stanza, for every XML
environment. -/
theorem whitespace_ping (env : XmlEnv) (chunk : String) (s : StreamState)
    (hne : qIsEmpty (s.dataBuffer ++ chunk) = false)
    (hws : qIsEmpty (qtrimmed (s.dataBuffer ++ chunk)) = true) :
    handleTextMessageReceived env chunk s =
      { s with dataBuffer := "",
               events := s.events ++ [Event.stanzaDispatched none] } := by
  simp [handleTextMessageReceived, hne, hws]

/-- C7 witness. -/
theorem whitespace_ping_witness :
    handleTextMessageReceived envNone " " initialState =
      { initialState with dataBuffer := "",
                          events := initialState.events
                            ++ [Event.stanzaDispatched none] } :=
  whitespace_ping envNone " " initialState (by decide) (by decide)

/-- C8: when the candidate document fails to parse, the feed keeps the
appended chunk in the buffer and mutates nothing else — no captured
stream start, no counter change, no dispatch, no output. -/
theorem parse_failure_retains_buffer (env : XmlEnv) (chunk : String) (s : StreamState)
    (hguard : (!(qIsEmpty (s.dataBuffer ++ chunk))
        && qIsEmpty (qtrimmed (s.dataBuffer ++ chunk))) = false)
    (hparse : env.setContent
        (candidateXml env s.streamStart (s.dataBuffer ++ chunk)) = none) :
    handleTextMessageReceived env chunk s
      = { s with dataBuffer := s.dataBuffer ++ chunk } := by
  simp [handleTextMessageReceived, hguard, hparse]

/-- C8 witness. -/
theorem parse_failure_retains_buffer_witness :
    handleTextMessageReceived envNone "<mess" initialState
      = { initialState with dataBuffer := initialState.dataBuffer ++ "<mess" } :=
  parse_failure_retains_buffer envNone "<mess" initialState (by decide) (by decide)

/-- C1 counterexample: a `<message/>` stanza dispatched from a parsed
document while stream management is disabled still increments
`lastIncomingSequenceNumber` — the code does not consult the
management flag, contradicting the claim that the counter is unchanged
when management is disabled. -/
theorem incoming_counter_ignores_management_flag :
    initialState.streamManagementEnabled = false ∧
    (handleTextMessageReceived envMsg "<message/>" initialState).lastIncomingSequenceNumber
      = initialState.lastIncomingSequenceNumber + 1 := by
  constructor
  · rfl
  · decide

/-- C1 (amended): dispatching a child that is neither an ack frame nor
a request frame increments `lastIncomingSequenceNumber` exactly when
its tag is message / presence / iq, regardless of the management flag;
the dispatch itself is always reported and the ledger is untouched. -/
theorem incoming_counter_counts_real_stanzas (e : Elem) (s : StreamState)
    (hack : e.isSMAck = false) (hreq : e.isSMReq = false) :
    ((e.tagName = "message" ∨ e.tagName = "presence" ∨ e.tagName = "iq") →
        (processChild e s).lastIncomingSequenceNumber
          = (s.lastIncomingSequenceNumber + 1) % uintMod) ∧
    (¬(e.tagName = "message" ∨ e.tagName = "presence" ∨ e.tagName = "iq") →
        (processChild e s).lastIncomingSequenceNumber
          = s.lastIncomingSequenceNumber) ∧
    (processChild e s).events = s.events ++ [Event.stanzaDispatched (some e)] ∧
    (processChild e s).unacknowledgedStanzas = s.unacknowledgedStanzas ∧
    (processChild e s).streamManagementEnabled = s.streamManagementEnabled := by
  by_cases htag : e.tagName = "message" ∨ e.tagName = "presence" ∨ e.tagName = "iq"
  · refine ⟨fun _ => ?_, fun hcon => absurd htag hcon, ?_, ?_, ?_⟩ <;>
      simp [processChild, hack, hreq, htag] <;>
      rcases htag with h | h | h <;> simp [h]
  · push_neg at htag
    obtain ⟨h1, h2, h3⟩ := htag
    refine ⟨fun hcon => ?_, fun _ => ?_, ?_, ?_, ?_⟩
    · rcases hcon with h | h | h <;> simp_all
    all_goals simp [processChild, hack, hreq, h1, h2, h3]

/-- C1 (amended) witness. -/
theorem incoming_counter_counts_real_stanzas_witness :
    (processChild msgElem initialState).lastIncomingSequenceNumber
      = (initialState.lastIncomingSequenceNumber + 1) % uintMod ∧
    (processChild msgElem initialState).unacknowledgedStanzas
      = initialState.unacknowledgedStanzas := by
  have h := incoming_counter_counts_real_stanzas msgElem initialState
    (by decide) (by decide)
  exact ⟨h.1 (Or.inl (by decide)), h.2.2.2.1⟩

/-- C5: on a ledger `{3 ↦ a, 5 ↦ b, 7 ↦ c}` with a connected transport,
`enable(reset := true)` renumbers the entries to `{1 ↦ a, 2 ↦ b, 3 ↦ c}`
(zeroing the incoming counter, the outgoing counter ending at the number
of entries), retransmits `a, b, c` in order and emits exactly one
request frame; `enable(reset := false)` retransmits `a, b, c` unchanged,
keeps the entries at `{3, 5, 7}`, leaves both counters alone and emits
exactly one request frame. -/
theorem enable_retransmits_ledger (a b c : String) (s : StreamState)
    (hled : s.unacknowledgedStanzas = [(3, a), (5, b), (7, c)])
    (hconn : s.connected = true) :
    (enableStreamManagement true s).unacknowledgedStanzas
        = [(1, a), (2, b), (3, c)] ∧
    (enableStreamManagement true s).lastOutgoingSequenceNumber = 3 ∧
    (enableStreamManagement true s).lastIncomingSequenceNumber = 0 ∧
    (enableStreamManagement true s).outbox
        = s.outbox ++ [OutItem.text a, OutItem.text b, OutItem.text c,
                       OutItem.reqFrame] ∧
    (enableStreamManagement true s).streamManagementEnabled = true ∧
    (enableStreamManagement false s).unacknowledgedStanzas
        = [(3, a), (5, b), (7, c)] ∧
    (enableStreamManagement false s).outbox
        = s.outbox ++ [OutItem.text a, OutItem.text b, OutItem.text c,
                       OutItem.reqFrame] ∧
    (enableStreamManagement false s).lastOutgoingSequenceNumber
        = s.lastOutgoingSequenceNumber ∧
    (enableStreamManagement false s).lastIncomingSequenceNumber
        = s.lastIncomingSequenceNumber ∧
    (enableStreamManagement false s).streamManagementEnabled = true := by
  simp [enableStreamManagement, hled, hconn, sendData, sendDataItem,
    sendAcknowledgementRequest, mapInsert, uintMod]

/-- C5 witness. -/
theorem enable_retransmits_ledger_witness :
    (enableStreamManagement true
        { initialState with
            unacknowledgedStanzas := [(3, "A"), (5, "B"), (7, "C")] }).unacknowledgedStanzas
      = [(1, "A"), (2, "B"), (3, "C")] ∧
    (enableStreamManagement false
        { initialState with
            unacknowledgedStanzas := [(3, "A"), (5, "B"), (7, "C")] }).outbox
      = initialState.outbox ++ [OutItem.text "A", OutItem.text "B", OutItem.text "C",
                                OutItem.reqFrame] := by
  have h := enable_retransmits_ledger "A" "B" "C"
    { initialState with unacknowledgedStanzas := [(3, "A"), (5, "B"), (7, "C")] }
    (by decide) (by decide)
  exact ⟨h.1, h.2.2.2.2.2.2.1⟩

theorem sendAll_cons (p : Stanza) (ps : List Stanza) (s : StreamState) :
    sendAll (p :: ps) s = sendAll ps (sendPacket p s).2 := rfl

theorem sendAll_assigns (ps : List Stanza) : ∀ (s : StreamState),
    s.streamManagementEnabled = true →
    (∀ e ∈ s.unacknowledgedStanzas, e.1 ≤ s.lastOutgoingSequenceNumber) →
    s.lastOutgoingSequenceNumber
        + (ps.filter (fun p => p.isXmppStanza)).length < uintMod →
    (sendAll ps s).unacknowledgedStanzas
        = s.unacknowledgedStanzas
            ++ seqTag s.lastOutgoingSequenceNumber
                (ps.filter (fun p => p.isXmppStanza)) ∧
    (sendAll ps s).lastOutgoingSequenceNumber
        = s.lastOutgoingSequenceNumber
            + (ps.filter (fun p => p.isXmppStanza)).length := by
  induction ps with
  | nil => intro s _ _ _; simp [sendAll, seqTag]
  | cons p ps ih =>
    intro s hsm hinv hlt
    have hf := sendPacket_fields p s
    by_cases hp : p.isXmppStanza = true
    · have hfilter : (p :: ps).filter (fun q => q.isXmppStanza)
          = p :: ps.filter (fun q => q.isXmppStanza) := by
        simp [List.filter_cons, hp]
      rw [hfilter] at hlt ⊢
      simp only [List.length_cons] at hlt
      have hmod : (s.lastOutgoingSequenceNumber + 1) % uintMod
          = s.lastOutgoingSequenceNumber + 1 :=
        Nat.mod_eq_of_lt (by omega)
      have hu : (sendPacket p s).2.unacknowledgedStanzas
          = s.unacknowledgedStanzas
              ++ [(s.lastOutgoingSequenceNumber + 1, p.xml)] := by
        rw [hf.2.2.2.1]
        simp only [hp, hsm, Bool.and_self, if_pos, hmod]
        exact mapInsert_eq_append _ _ _
          (fun e he => Nat.lt_succ_of_le (hinv e he))
      have hl : (sendPacket p s).2.lastOutgoingSequenceNumber
          = s.lastOutgoingSequenceNumber + 1 := by
        rw [hf.2.2.2.2]
        simp only [hp, hsm, Bool.and_self, if_pos, hmod]
      have hsm' : (sendPacket p s).2.streamManagementEnabled = true :=
        hf.1.trans hsm
      have hinv' : ∀ e ∈ (sendPacket p s).2.unacknowledgedStanzas,
          e.1 ≤ (sendPacket p s).2.lastOutgoingSequenceNumber := by
        rw [hu, hl]
        intro e he
        rcases List.mem_append.1 he with h | h
        · exact Nat.le_trans (hinv e h) (Nat.le_succ _)
        · simp only [List.mem_singleton] at h
          subst h
          exact Nat.le_refl _
      have hlt' : (sendPacket p s).2.lastOutgoingSequenceNumber
          + (ps.filter (fun q => q.isXmppStanza)).length < uintMod := by
        rw [hl]; omega
      obtain ⟨ihu, ihl⟩ := ih (sendPacket p s).2 hsm' hinv' hlt'
      constructor
      · rw [sendAll_cons, ihu, hu, hl, seqTag, List.append_assoc]
        simp
      · rw [sendAll_cons, ihl, hl]
        simp only [List.length_cons]
        omega
    · have hp' : p.isXmppStanza = false := by
        cases hpp : p.isXmppStanza
        · rfl
        · exact absurd hpp hp
      have hfilter : (p :: ps).filter (fun q => q.isXmppStanza)
          = ps.filter (fun q => q.isXmppStanza) := by
        simp [List.filter_cons, hp']
      rw [hfilter] at hlt ⊢
      have hu : (sendPacket p s).2.unacknowledgedStanzas
          = s.unacknowledgedStanzas := by
        rw [hf.2.2.2.1]; simp [hp']
      have hl : (sendPacket p s).2.lastOutgoingSequenceNumber
          = s.lastOutgoingSequenceNumber := by
        rw [hf.2.2.2.2]; simp [hp']
      have hsm' : (sendPacket p s).2.streamManagementEnabled = true :=
        hf.1.trans hsm
      obtain ⟨ihu, ihl⟩ := ih (sendPacket p s).2 hsm'
        (by rw [hu, hl]; exact hinv) (by rw [hl]; exact hlt)
      exact ⟨by rw [sendAll_cons, ihu, hu, hl], by rw [sendAll_cons, ihl, hl]⟩

/-- C4: starting from a fresh managed state, a call sequence whose real
stanzas are `p₁, p₂, p₃` (interleaved with arbitrarily many non-real
stanzas) assigns them sequence numbers 1, 2, 3 in call order — the
ledger ends as exactly those three entries with strictly increasing,
never-reused keys — while a non-real stanza never changes the outgoing
counter and never receives a ledger entry. -/
theorem real_stanzas_numbered_in_order (ps : List Stanza) (s : StreamState)
    (p1 p2 p3 q : Stanza)
    (hsm : s.streamManagementEnabled = true)
    (hempty : s.unacknowledgedStanzas = [])
    (hzero : s.lastOutgoingSequenceNumber = 0)
    (hfilter : ps.filter (fun p => p.isXmppStanza) = [p1, p2, p3])
    (hq : q.isXmppStanza = false) :
    (sendAll ps s).unacknowledgedStanzas
        = [(1, p1.xml), (2, p2.xml), (3, p3.xml)] ∧
    (sendAll ps s).lastOutgoingSequenceNumber = 3 ∧
    List.Pairwise (fun a b : Nat × String => a.1 < b.1)
        (sendAll ps s).unacknowledgedStanzas ∧
    (sendPacket q s).2.lastOutgoingSequenceNumber
        = s.lastOutgoingSequenceNumber ∧
    (sendPacket q s).2.unacknowledgedStanzas = s.unacknowledgedStanzas := by
  have hb : s.lastOutgoingSequenceNumber
      + (ps.filter (fun p => p.isXmppStanza)).length < uintMod := by
    rw [hzero, hfilter]
    norm_num [uintMod]
  obtain ⟨hu, hl⟩ := sendAll_assigns ps s hsm
    (by rw [hempty]; intro e he; cases he) hb
  rw [hempty] at hu
  rw [hzero, hfilter] at hu hl
  have hf := sendPacket_fields q s
  refine ⟨?_, ?_, ?_, ?_, ?_⟩
  · simpa [seqTag] using hu
  · simpa using hl
  · have : (sendAll ps s).unacknowledgedStanzas
        = [(1, p1.xml), (2, p2.xml), (3, p3.xml)] := by simpa [seqTag] using hu
    rw [this]
    simp [List.pairwise_cons]
  · rw [hf.2.2.2.2]; simp [hq]
  · rw [hf.2.2.2.1]; simp [hq]

/-- C4 witness. -/
theorem real_stanzas_numbered_in_order_witness :
    (sendAll
        [{ xml := "<r/>", isXmppStanza := false },
         { xml := "<m1/>", isXmppStanza := true },
         { xml := "<r/>", isXmppStanza := false },
         { xml := "<m2/>", isXmppStanza := true },
         { xml := "<m3/>", isXmppStanza := true },
         { xml := "<r/>", isXmppStanza := false }]
        { initialState with streamManagementEnabled := true }).unacknowledgedStanzas
      = [(1, "<m1/>"), (2, "<m2/>"), (3, "<m3/>")] := by
  have h := real_stanzas_numbered_in_order
    [{ xml := "<r/>", isXmppStanza := false },
     { xml := "<m1/>", isXmppStanza := true },
     { xml := "<r/>", isXmppStanza := false },
     { xml := "<m2/>", isXmppStanza := true },
     { xml := "<m3/>", isXmppStanza := true },
     { xml := "<r/>", isXmppStanza := false }]
    { initialState with streamManagementEnabled := true }
    { xml := "<m1/>", isXmppStanza := true }
    { xml := "<m2/>", isXmppStanza := true }
    { xml := "<m3/>", isXmppStanza := true }
    { xml := "<r/>", isXmppStanza := false }
    (by decide) (by decide) (by decide) (by decide) (by decide)
  exact h.1
